import Mathlib

/-!
Verification of the Building Resolution & Identifier-Bridging Engine of the
Campus-Wifi-Vue-App backend (`backend/main.py`).

Strings are modelled as lists of characters (`Str`); Python string methods
(`strip`, `lower`, `isdigit`, `zfill`, substring `in`) are given as explicit
recursive functions.  Jaro-Winkler similarity is an external library call
(`jellyfish`), so the matcher is parametrised by the score function; all
claims about the fuzzy tier hold for every score function.
-/

namespace CampusWifi

set_option maxRecDepth 8000

/-- Strings as lists of characters. -/
abbrev Str := List Char

/-- Python `str.strip()`: remove leading and trailing whitespace. -/
def pyStrip (l : Str) : Str :=
  ((l.dropWhile Char.isWhitespace).reverse.dropWhile Char.isWhitespace).reverse

/-- Python `str.lower()` (ASCII case folding, as used by the matcher). -/
def pyLower (l : Str) : Str := l.map Char.toLower

/-- Python `str.isdigit()`: non-empty and all decimal digits. -/
def isAllDigits (l : Str) : Bool := !l.isEmpty && l.all (fun c => c.isDigit)

/-- Python `str.zfill(3)`: left-pad with zeros to width 3. -/
def zfill3 (l : Str) : Str :=
  if l.length < 3 then List.replicate (3 - l.length) '0' ++ l else l

/-- Does `l` start with `p`? (helper for substring containment). -/
def startsWith : Str → Str → Bool
  | _, [] => true
  | [], _ :: _ => false
  | a :: as, b :: bs => a = b && startsWith as bs

/-- Python `needle in hay` substring containment. -/
def containsSub (needle : Str) : Str → Bool
  | [] => needle.isEmpty
  | c :: t => startsWith (c :: t) needle || containsSub needle t

/-- Python `str(int(s))` for a string of digits: strip leading zeros,
leaving `"0"` when every digit was a zero. -/
def strInt (s : Str) : Str :=
  match s.dropWhile (fun c => c = '0') with
  | [] => ['0']
  | t => t

/-- Association-list lookup (Python `dict` access preserving insertion order). -/
def assocLookup {β : Type} : List (Str × β) → Str → Option β
  | [], _ => none
  | (k, v) :: rest, q => if q = k then some v else assocLookup rest q

/-- One row of the campus GeoDataFrame: the columns the matcher and the
bridge read (`BLDG_NAME` and `BLDG_CODE`). -/
structure Building where
  name : Str
  code : Str
deriving DecidableEq

/-- Outcome of `find_building_match`: the `("exact", row)`,
`("suggestion", top-3 rows with scores)` and `("none", [])` returns. -/
inductive MatchResult where
  | exact (b : Building)
  | suggestion (top : List (Building × ℚ))
  | noMatch
deriving DecidableEq

/-- The `CUSTOM_ALIASES` dictionary of `backend/main.py`. -/
def CUSTOM_ALIASES : List (Str × Str) :=
  [("culc".data, "Clough Building".data),
   ("clough".data, "Clough Building".data),
   ("crc".data, "Campus Recreation Center".data),
   ("mrdc".data, "Manufacturing Related Disciplines Complex".data),
   ("coc".data, "College of Computing".data),
   ("klaus".data, "Klaus Advanced Computing Building".data),
   ("scheller".data, "Management Building".data),
   ("student center".data, "John Lewis Student Center".data),
   ("library".data, "Gilbert Memorial Library".data),
   ("price".data, "Gilbert Memorial Library".data),
   ("pg".data, "Gilbert Memorial Library".data)]

/-- `query_lower in CUSTOM_ALIASES` followed by `CUSTOM_ALIASES[query_lower]`. -/
def aliasLookup (q : Str) : Option Str := assocLookup CUSTOM_ALIASES q

/-- The rows matching the alias target, when the query is an alias key:
`df[df[NAME_COL].str.contains(target_name, case=False)]`; `[]` when the
query is not an alias key. -/
def aliasMatches (df : List Building) (query_lower : Str) : List Building :=
  match aliasLookup query_lower with
  | some target_name =>
      df.filter (fun b => containsSub (pyLower target_name) (pyLower b.name))
  | none => []

/-- `substring_matches[NAME_COL].str.len().idxmin()`: the first row whose
name length attains the minimum. -/
def pickShortestName : Building → List Building → Building
  | b, [] => b
  | b, c :: cs =>
      if c.name.length < b.name.length then pickShortestName c cs
      else pickShortestName b cs

/-- Descending order on scored rows, used to model
`sort_values(by='match_score', ascending=False)`. -/
abbrev scoreGE (a b : Building × ℚ) : Prop := b.2 ≤ a.2

instance : IsTotal (Building × ℚ) scoreGE := ⟨fun a b => le_total b.2 a.2⟩

instance : IsTrans (Building × ℚ) scoreGE := ⟨fun _ _ _ h1 h2 => le_trans h2 h1⟩

/-- Tier 2c of `find_building_match`: score every name, sort descending,
and apply the 0.90 / 0.60 thresholds.  (On an empty record set the source
would fail on `iloc[0]`; the model returns `noMatch` there, a branch outside
every claim.) -/
def fuzzyMatch (score : Str → Str → ℚ) (query_lower : Str)
    (df : List Building) : MatchResult :=
  match List.insertionSort scoreGE
      (df.map (fun b => (b, score query_lower (pyLower b.name)))) with
  | [] => .noMatch
  | (b, s) :: rest =>
      if (90 / 100 : ℚ) ≤ s then .exact b
      else if (60 / 100 : ℚ) ≤ s then .suggestion (((b, s) :: rest).take 3)
      else .noMatch

/-- Tiers 2a (exact name), 2b (substring, shortest name) and 2c (fuzzy)
of `find_building_match`. -/
def nameMatch (score : Str → Str → ℚ) (query_lower : Str)
    (df : List Building) : MatchResult :=
  match df.filter (fun b => pyLower b.name == query_lower) with
  | b :: _ => .exact b
  | [] =>
    match df.filter (fun b => containsSub query_lower (pyLower b.name)) with
    | c :: cs => .exact (pickShortestName c cs)
    | [] => fuzzyMatch score query_lower df

/-- Tier 1 (numeric codes) of `find_building_match`, falling through to the
name tiers for non-digit queries. -/
def codeNameMatch (score : Str → Str → ℚ) (query_str query_lower : Str)
    (df : List Building) : MatchResult :=
  if isAllDigits query_str then
    if 3 < query_str.length then .noMatch
    else
      match df.filter (fun b => b.code == zfill3 query_str) with
      | b :: _ => .exact b
      | [] => .noMatch
  else nameMatch score query_lower df

/-- `find_building_match(query, df)` of `backend/main.py`, parametrised by
the Jaro-Winkler score function. -/
def find_building_match (score : Str → Str → ℚ) (query : Str)
    (df : List Building) : MatchResult :=
  let query_str := pyStrip query
  let query_lower := pyLower query_str
  match aliasMatches df query_lower with
  | b :: _ => .exact b
  | [] => codeNameMatch score query_str query_lower df

/-- `re.search(r'(\d+)', s)`: the first contiguous run of digits in `s`,
if any (the bridge-construction step of `lifespan`). -/
def firstDigitRun : Str → Option Str
  | [] => none
  | c :: rest =>
      if c.isDigit then some (c :: rest.takeWhile Char.isDigit)
      else firstDigitRun rest

/-- Python `str.lstrip('0')`. -/
def lstripZeros (l : Str) : Str := l.dropWhile (fun c => c = '0')

/-- `id_bridge[clean_id].append(real_id)`, creating the entry when absent
(insertion order of a Python dict). -/
def bridgeAppend : List (Str × List Str) → Str → Str → List (Str × List Str)
  | [], k, v => [(k, [v])]
  | (k', vs) :: rest, k, v =>
      if k' = k then (k', vs ++ [v]) :: rest
      else (k', vs) :: bridgeAppend rest k v

/-- One iteration of the bridge-construction loop of `lifespan`: extract the
digit run of a display code, strip leading zeros, append to its entry. -/
def bridgeStep (b : List (Str × List Str)) (real_id : Str) :
    List (Str × List Str) :=
  match firstDigitRun real_id with
  | some run => bridgeAppend b (lstripZeros run) real_id
  | none => b

/-- `pandas.unique`: first occurrence of each value, in order (`seen` is the
accumulator of values already kept). -/
def uniqueAux : List Str → List Str → List Str
  | _, [] => []
  | seen, x :: xs =>
      if x ∈ seen then uniqueAux seen xs else x :: uniqueAux (x :: seen) xs

/-- `campus_gdf['BLDG_CODE'].unique()`. -/
def uniqueFirst (l : List Str) : List Str := uniqueAux [] l

/-- The bridge-construction loop of `lifespan`: fold `bridgeStep` over the
distinct display codes. -/
def buildBridge (codes : List Str) : List (Str × List Str) :=
  (uniqueFirst codes).foldl bridgeStep []

/-- Expansion (`§4.5`): the bridge entry when present, else the code itself —
the `if data_id in id_bridge ... else` branch of `get_occupancy`. -/
def expandSensorCode (bridge : List (Str × List Str)) (code : Str) :
    List Str :=
  match assocLookup bridge code with
  | some real_ids => real_ids
  | none => [code]

/-- One occupancy observation: the columns of a row of the parquet frame
that `get_occupancy` reads. -/
structure Obs where
  date : Str
  hour : Int
  minute : Int
  code : Str
  count : Nat
deriving DecidableEq

/-- The row loop of `get_occupancy`: for each observation, one output pair
per display code of its sensor code, all with the observation's count. -/
def joinLoop (bridge : List (Str × List Str)) : List Obs → List (Str × Nat)
  | [] => []
  | o :: rest =>
      (match assocLookup bridge o.code with
       | some real_ids => real_ids.map (fun rid => (rid, o.count))
       | none => [(o.code, o.count)]) ++ joinLoop bridge rest

/-- Digit-string to number (helper for the float-literal parser). -/
def digitsVal (l : Str) : Nat := l.foldl (fun a c => 10 * a + (c.toNat - 48)) 0

/-- Outcome of Python `float(s)` on an (ASCII) string: a finite value
`sgn * sig * 10 ^ ex` kept as exact integers, an infinity, or a NaN;
`none` is the `ValueError` of an unparsable literal.  IEEE-754
round-to-nearest of in-range values is abstracted — an in-range literal
keeps its exact decimal value — but the overflow to infinity at the
binary64 boundary is modelled exactly. -/
inductive PyFloat where
  | finite (sgn : Int) (sig : Nat) (ex : Int)
  | infinite
  | nan
deriving DecidableEq

/-- One maximal run of decimal digits with PEP-515 underscores (every
underscore flanked by digits), as accepted inside Python float literals;
returns the digits and the unconsumed rest, or `none` on a misplaced
underscore.  `acc` holds the digits read so far, reversed. -/
def udigitsAux (acc : List Char) : Str → Option (List Char × Str)
  | [] => some (acc.reverse, [])
  | '_' :: [] => none
  | '_' :: d :: rest =>
      if d.isDigit then udigitsAux (d :: acc) rest else none
  | c :: rest =>
      if c.isDigit then udigitsAux (c :: acc) rest
      else some (acc.reverse, c :: rest)

/-- Digit run starting the string: at least one digit, then `udigitsAux`. -/
def udigits : Str → Option (List Char × Str)
  | c :: rest => if c.isDigit then udigitsAux [c] rest else none
  | [] => none

/-- The smallest positive decimal value that converts to a binary64
infinity: `2 ^ 1024 - 2 ^ 970`, the rounding midpoint above the largest
finite double (`float('1.8e308')` is `inf`, and `int` of it overflows). -/
def floatOverflowBoundN : Nat := 2 ^ 1024 - 2 ^ 970

/-- Assemble the value of a parsed literal with integer part `ip`,
fractional digits `fp` and decimal exponent `e`: infinite when the exact
value reaches the binary64 overflow bound, else the exact finite value.
Exponents beyond the guards (where exact evaluation is astronomically
large or small) saturate to the infinity, respectively to a value that
truncates to 0, which is what `int(float(·))` observes. -/
def pyFloatVal (sgn : Int) (ip fp : List Char) (e : Int) : PyFloat :=
  let sig : Nat := digitsVal ip * 10 ^ fp.length + digitsVal fp
  let ex : Int := e - fp.length
  if sig = 0 then PyFloat.finite sgn 0 0
  else if 400 < ex then PyFloat.infinite
  else if ex < -(400 + (ip.length : Int) + fp.length) then PyFloat.finite sgn 0 0
  else if 0 ≤ ex then
    if floatOverflowBoundN ≤ sig * 10 ^ ex.toNat then PyFloat.infinite
    else PyFloat.finite sgn sig ex
  else
    if floatOverflowBoundN * 10 ^ (-ex).toNat ≤ sig then PyFloat.infinite
    else PyFloat.finite sgn sig ex

/-- Optional exponent part `('e'|'E') [sign] digits` closing the literal. -/
def pyFloatExp (sgn : Int) (ip fp : List Char) : Str → Option PyFloat
  | [] => some (pyFloatVal sgn ip fp 0)
  | c :: r =>
      if c = 'e' ∨ c = 'E' then
        let sr : Int × Str :=
          match r with
          | '+' :: rr => (1, rr)
          | '-' :: rr => (-1, rr)
          | rr => (1, rr)
        match udigits sr.2 with
        | some (ed, []) =>
            some (pyFloatVal sgn ip fp (sr.1 * (digitsVal ed : Int)))
        | _ => none
      else none

/-- Optional fractional part `. [digits]` after the integer part
(`float("1.")` and `float("1.e3")` are accepted). -/
def pyFloatFrac (sgn : Int) (ip : List Char) : Str → Option PyFloat
  | '.' :: r =>
      (match udigits r with
       | some (fp, rest2) => pyFloatExp sgn ip fp rest2
       | none => pyFloatExp sgn ip [] r)
  | r => pyFloatExp sgn ip [] r

/-- Python `float(s)` on ASCII strings: strip whitespace, optional sign,
then `inf`/`infinity`/`nan` (case-insensitive) or a decimal literal
`digits [. digits] [exponent]` / `. digits [exponent]` with PEP-515
underscores.  Anything else raises `ValueError` (`none`). -/
def pyFloat (s : Str) : Option PyFloat :=
  let t := pyStrip s
  let su : Int × Str :=
    match t with
    | '-' :: r => (-1, r)
    | '+' :: r => (1, r)
    | r => (1, r)
  if pyLower su.2 = "inf".data ∨ pyLower su.2 = "infinity".data then
    some PyFloat.infinite
  else if pyLower su.2 = "nan".data then some PyFloat.nan
  else
    match udigits su.2 with
    | some (ip, rest1) => pyFloatFrac su.1 ip rest1
    | none =>
        match su.2 with
        | '.' :: r =>
            (match udigits r with
             | some (fp, rest2) => pyFloatExp su.1 [] fp rest2
             | none => none)
        | _ => none

/-- Outcome of Python `int(float(s))`: the integer (truncation toward
zero), the `ValueError` raised by an unparsable literal or by `int(nan)`,
or the `OverflowError` raised by `int(inf)`. -/
inductive IntParse where
  | ok (n : Int)
  | valueError
  | overflowError
deriving DecidableEq

/-- `int(float(s))`: truncation toward zero of the exact parsed value;
`ValueError` for unparsable literals and NaN, `OverflowError` for the
infinities. -/
def pyIntFloat (s : Str) : IntParse :=
  match pyFloat s with
  | none => IntParse.valueError
  | some PyFloat.nan => IntParse.valueError
  | some PyFloat.infinite => IntParse.overflowError
  | some (PyFloat.finite sgn sig ex) =>
      IntParse.ok (if 0 ≤ ex then sgn * ((sig * 10 ^ ex.toNat : Nat) : Int)
        else sgn * ((sig / 10 ^ (-ex).toNat : Nat) : Int))

/-- Error channel of `get_occupancy`: `invalidInput` is the caught
`ValueError` (`HTTPException(400, "Invalid format")`); `uncaughtOverflow`
is the `OverflowError` of `int(float("inf"))`, which the
`except ValueError` handler does not catch, so it escapes as an unhandled
server error rather than the 400. -/
inductive JoinError where
  | invalidInput
  | uncaughtOverflow
deriving DecidableEq

/-- `get_occupancy(date, hour, minute)` of `backend/main.py`: parse the
hour then the minute (the first raised exception wins, as in the
sequential `try` block), filter the observations, run the bridge fan-out
loop. -/
def get_occupancy (dateq hourq minuteq : Str) (data : List Obs)
    (bridge : List (Str × List Str)) : Except JoinError (List (Str × Nat)) :=
  match pyIntFloat hourq with
  | IntParse.valueError => Except.error JoinError.invalidInput
  | IntParse.overflowError => Except.error JoinError.uncaughtOverflow
  | IntParse.ok h =>
    match pyIntFloat minuteq with
    | IntParse.valueError => Except.error JoinError.invalidInput
    | IntParse.overflowError => Except.error JoinError.uncaughtOverflow
    | IntParse.ok m =>
        Except.ok (joinLoop bridge
          (data.filter (fun o =>
            o.date == dateq && o.hour == h && o.minute == m)))

/-! ### Character and string lemmas -/

theorem toLower_of_isDigit {c : Char} (h : c.isDigit = true) : c.toLower = c := by
  simp only [Char.isDigit, Bool.and_eq_true, decide_eq_true_eq] at h
  unfold Char.toLower
  rw [if_neg]
  rintro ⟨h1, _⟩
  have h2 : c.val ≤ 57 := h.2
  rw [UInt32.le_def, BitVec.le_def] at h2
  have h3 : c.toNat = c.val.toBitVec.toNat := rfl
  rw [h3] at h1
  have : (57 : UInt32).toBitVec.toNat = 57 := rfl
  omega

theorem not_whitespace_of_isDigit {c : Char} (h : c.isDigit = true) :
    c.isWhitespace = false := by
  simp only [Char.isDigit, Bool.and_eq_true, decide_eq_true_eq] at h
  have h1 : c.val ≥ 48 := h.1
  rw [ge_iff_le, UInt32.le_def, BitVec.le_def] at h1
  simp only [Char.isWhitespace, Bool.or_eq_false_iff, decide_eq_false_iff_not]
  refine ⟨⟨⟨?_, ?_⟩, ?_⟩, ?_⟩ <;> rintro rfl <;> revert h1 <;> decide

theorem isAllDigits_mem {l : Str} (h : isAllDigits l = true) :
    ∀ c ∈ l, c.isDigit = true := by
  simp only [isAllDigits, Bool.and_eq_true, List.all_eq_true] at h
  exact h.2

theorem dropWhile_eq_self_of_forall {p : Char → Bool} {l : Str}
    (h : ∀ c ∈ l, p c = false) : l.dropWhile p = l := by
  cases l with
  | nil => rfl
  | cons a t => simp [List.dropWhile_cons, h a (by simp)]

theorem pyStrip_eq_self {l : Str} (h : ∀ c ∈ l, c.isWhitespace = false) :
    pyStrip l = l := by
  unfold pyStrip
  rw [dropWhile_eq_self_of_forall h, dropWhile_eq_self_of_forall
    (fun c hc => h c (List.mem_reverse.mp hc)), List.reverse_reverse]

theorem pyStrip_of_digits {l : Str} (h : isAllDigits l = true) :
    pyStrip l = l :=
  pyStrip_eq_self fun c hc => not_whitespace_of_isDigit (isAllDigits_mem h c hc)

theorem map_toLower_eq_self {l : Str} (h : ∀ c ∈ l, c.isDigit = true) :
    l.map Char.toLower = l := by
  induction l with
  | nil => rfl
  | cons a t ih =>
    simp only [List.map_cons]
    rw [toLower_of_isDigit (h a (by simp)), ih (fun c hc => h c (by simp [hc]))]

theorem pyLower_of_digits {l : Str} (h : isAllDigits l = true) :
    pyLower l = l :=
  map_toLower_eq_self (isAllDigits_mem h)

theorem startsWith_iff : ∀ {l p : Str}, startsWith l p = true ↔ p <+: l
  | _, [] => by simp [startsWith, List.nil_prefix]
  | [], _ :: _ => by simp [startsWith]
  | a :: as, b :: bs => by
    simp only [startsWith, Bool.and_eq_true, decide_eq_true_eq,
      List.cons_prefix_cons, startsWith_iff (l := as) (p := bs)]
    tauto

theorem containsSub_iff : ∀ {hay needle : Str},
    containsSub needle hay = true ↔ needle <:+: hay
  | [], needle => by
    simp [containsSub, List.isEmpty_iff, List.infix_nil]
  | c :: t, needle => by
    simp only [containsSub, Bool.or_eq_true, startsWith_iff,
      @containsSub_iff t needle, List.infix_cons_iff]

theorem containsSub_nil (hay : Str) : containsSub [] hay = true :=
  containsSub_iff.mpr List.nil_infix

theorem pyStrip_within (l : Str) : pyStrip l <:+: l := by
  have h1 : l.dropWhile Char.isWhitespace <:+ l :=
    List.dropWhile_suffix Char.isWhitespace
  have h2 : (l.dropWhile Char.isWhitespace).reverse.dropWhile Char.isWhitespace
      <:+ (l.dropWhile Char.isWhitespace).reverse :=
    List.dropWhile_suffix Char.isWhitespace
  have h3 : pyStrip l <+: l.dropWhile Char.isWhitespace := by
    rw [← List.reverse_suffix, pyStrip, List.reverse_reverse]
    exact h2
  exact List.IsInfix.trans h3.isInfix h1.isInfix

theorem strInt_ne_nil (s : Str) : strInt s ≠ [] := by
  unfold strInt
  rcases hds : s.dropWhile (fun c => decide (c = '0')) with _ | ⟨a, t⟩ <;> simp

theorem strInt_length_le {s : Str} (hne : s ≠ []) :
    (strInt s).length ≤ s.length := by
  unfold strInt
  rcases hds : s.dropWhile (fun c => decide (c = '0')) with _ | ⟨a, t⟩
  · show (1 : Nat) ≤ s.length
    exact List.length_pos.mpr hne
  · show (a :: t).length ≤ s.length
    calc (a :: t).length = (s.dropWhile (fun c => decide (c = '0'))).length := by
          rw [hds]
      _ ≤ s.length := (List.dropWhile_suffix _).length_le

theorem strInt_all_digits {s : Str} (h : isAllDigits s = true) :
    isAllDigits (strInt s) = true := by
  unfold strInt
  rcases hds : s.dropWhile (fun c => decide (c = '0')) with _ | ⟨a, t⟩
  · decide
  · have hsuf : a :: t <:+ s := hds ▸ List.dropWhile_suffix _
    show isAllDigits (a :: t) = true
    simp only [isAllDigits, List.isEmpty_cons, Bool.not_false, Bool.true_and,
      List.all_eq_true]
    exact fun c hc => isAllDigits_mem h c (hsuf.subset hc)

theorem zfill3_strInt {s : Str} (hlen : s.length = 3) : zfill3 (strInt s) = s := by
  have hsplit := List.takeWhile_append_dropWhile
    (p := fun c => decide (c = '0')) (l := s)
  have htw : ∀ b ∈ s.takeWhile (fun c => decide (c = '0')), b = '0' := by
    intro b hb
    simpa using List.mem_takeWhile_imp hb
  have hrep := List.eq_replicate_of_mem htw
  unfold strInt
  rcases hds : s.dropWhile (fun c => decide (c = '0')) with _ | ⟨a, t⟩
  · rw [hds, List.append_nil] at hsplit
    have hlen0 : (s.takeWhile (fun c => decide (c = '0'))).length = 3 := by
      rw [hsplit]; exact hlen
    rw [hlen0] at hrep
    have hs : s = List.replicate 3 '0' := by rw [← hsplit]; exact hrep
    rw [hs]
    decide
  · rw [hds] at hsplit
    have hk : (s.takeWhile (fun c => decide (c = '0'))).length +
        (a :: t).length = 3 := by
      rw [← List.length_append, hsplit, hlen]
    show zfill3 (a :: t) = s
    unfold zfill3
    split
    · have hn : 3 - (a :: t).length =
          (s.takeWhile (fun c => decide (c = '0'))).length := by
        omega
      rw [hn, ← hrep]
      exact hsplit
    · rename_i hge
      have h0 : (s.takeWhile (fun c => decide (c = '0'))).length = 0 := by
        simp only [List.length_cons] at hk hge ⊢
        omega
      rw [← hsplit, hrep, h0]
      simp

theorem assocLookup_eq_none {β : Type} {l : List (Str × β)} {q : Str}
    (h : ∀ kv ∈ l, q ≠ kv.1) : assocLookup l q = none := by
  induction l with
  | nil => rfl
  | cons kv rest ih =>
    obtain ⟨k, v⟩ := kv
    simp only [assocLookup]
    rw [if_neg (h (k, v) (by simp))]
    exact ih (fun kv hkv => h kv (by simp [hkv]))

theorem aliasLookup_of_digits {s : Str} (h : isAllDigits s = true) :
    aliasLookup s = none := by
  apply assocLookup_eq_none
  intro kv hkv he
  simp only [CUSTOM_ALIASES, List.mem_cons, List.not_mem_nil, or_false] at hkv
  rcases hkv with rfl | rfl | rfl | rfl | rfl | rfl | rfl | rfl | rfl | rfl | rfl <;>
    exact absurd (he ▸ h) (by decide)

/-! ### `pickShortestName` and tier-unfolding lemmas -/

theorem pickShortestName_of_nil {b : Building} (hb : b.name = []) :
    ∀ cs, pickShortestName b cs = b := by
  intro cs
  induction cs with
  | nil => rfl
  | cons c cs ih =>
    unfold pickShortestName
    rw [if_neg (by simp [hb])]
    exact ih

theorem pickShortestName_filter_nilName :
    ∀ (bs : List Building) (b e : Building) (rest : List Building),
      List.filter (fun x => pyLower x.name == ([] : Str)) (b :: bs) = e :: rest →
      pickShortestName b bs = e := by
  intro bs
  induction bs with
  | nil =>
    intro b e rest hf
    rw [List.filter_cons] at hf
    by_cases hb : (pyLower b.name == ([] : Str)) = true
    · rw [if_pos hb] at hf
      rw [List.cons.injEq] at hf
      exact hf.1
    · rw [if_neg hb] at hf
      simp at hf
  | cons c cs ih =>
    intro b e rest hf
    rw [List.filter_cons] at hf
    by_cases hb : (pyLower b.name == ([] : Str)) = true
    · rw [if_pos hb] at hf
      rw [List.cons.injEq] at hf
      have hbname : b.name = [] := by
        simpa [pyLower] using hb
      rw [← hf.1]
      unfold pickShortestName
      rw [if_neg (by simp [hbname])]
      exact pickShortestName_of_nil hbname cs
    · rw [if_neg hb] at hf
      have hbname : b.name ≠ [] := by
        simpa [pyLower] using hb
      unfold pickShortestName
      split
      · exact ih c e rest hf
      · rename_i hnlt
        rw [List.filter_cons] at hf
        by_cases hc : (pyLower c.name == ([] : Str)) = true
        · exfalso
          have hcname : c.name = [] := by
            simpa [pyLower] using hc
          apply hbname
          rw [hcname] at hnlt
          simp only [List.length_nil, Nat.not_lt, Nat.le_zero] at hnlt
          exact List.length_eq_zero.mp hnlt
        · rw [if_neg hc] at hf
          apply ih b e rest
          rw [List.filter_cons, if_neg hb]
          exact hf

theorem find_eq_code (score : Str → Str → ℚ) {query : Str} {df : List Building}
    (halias : aliasMatches df (pyLower (pyStrip query)) = []) :
    find_building_match score query df =
      codeNameMatch score (pyStrip query) (pyLower (pyStrip query)) df := by
  unfold find_building_match
  simp only [halias]

theorem aliasMatches_of_lookup_none (df : List Building) {ql : Str}
    (h : aliasLookup ql = none) : aliasMatches df ql = [] := by
  unfold aliasMatches
  rw [h]

/-! ### Claims about the resolver's numeric-code tier -/

/-- C2: a trimmed all-digit query that is not an alias key is resolved by the
code tier alone: `noMatch` when longer than 3 digits; otherwise `exact` with
the first record whose code equals the query zero-padded to width 3, and
`noMatch` when there is none — it never reaches the name tiers. -/
theorem numeric_query_code_tier (score : Str → Str → ℚ) (query : Str)
    (df : List Building)
    (hdig : isAllDigits (pyStrip query) = true)
    (halias : aliasLookup (pyLower (pyStrip query)) = none) :
    (3 < (pyStrip query).length →
      find_building_match score query df = MatchResult.noMatch) ∧
    ((pyStrip query).length ≤ 3 →
      (∀ b bs, df.filter (fun x => x.code == zfill3 (pyStrip query)) = b :: bs →
        find_building_match score query df = MatchResult.exact b) ∧
      (df.filter (fun x => x.code == zfill3 (pyStrip query)) = [] →
        find_building_match score query df = MatchResult.noMatch)) := by
  have hfind := find_eq_code score
    (aliasMatches_of_lookup_none df halias)
  refine ⟨?_, ?_⟩
  · intro hlen
    rw [hfind]
    unfold codeNameMatch
    rw [if_pos hdig, if_pos hlen]
  · intro hlen
    refine ⟨?_, ?_⟩
    · intro b bs hfil
      rw [hfind]
      unfold codeNameMatch
      rw [if_pos hdig, if_neg (by omega), hfil]
    · intro hfil
      rw [hfind]
      unfold codeNameMatch
      rw [if_pos hdig, if_neg (by omega), hfil]

/-- Witness for C2: the 4-digit query `"1234"` yields `noMatch`, and the
2-digit query `"77"` zero-pads to `"077"` and hits that code. -/
theorem numeric_query_code_tier_spot :
    find_building_match (fun _ _ => 0) ("1234".data)
        [⟨"Gilbert Memorial Library".data, "177".data⟩] = MatchResult.noMatch ∧
    find_building_match (fun _ _ => 0) ("77".data)
        [⟨"Gilbert Memorial Library".data, "077".data⟩] =
      MatchResult.exact ⟨"Gilbert Memorial Library".data, "077".data⟩ :=
  ⟨(numeric_query_code_tier (fun _ _ => 0) ("1234".data)
      [⟨"Gilbert Memorial Library".data, "177".data⟩]
      (by decide) (by decide)).1 (by decide),
   ((numeric_query_code_tier (fun _ _ => 0) ("77".data)
      [⟨"Gilbert Memorial Library".data, "077".data⟩]
      (by decide) (by decide)).2 (by decide)).1 _ [] (by decide)⟩

/-- C6 counterexample: the record's `display_code` is the 2-digit numeral
`"77"`; the unpadded query `str(int("77")) = "77"` is zero-padded to
`"077"`, which no record carries, so resolution returns `noMatch` instead
of the `exact` return the claim requires. -/
theorem short_code_unpadded_fails :
    find_building_match (fun _ _ => 0) (strInt ("77".data))
      [⟨"Seventy-Seven Lounge".data, "77".data⟩] = MatchResult.noMatch := by
  decide

/-- C6 amended: for a record whose `display_code` is numeric with exactly
3 digits and which is the first record carrying that code, resolving the
unpadded numeral `str(int(display_code))` returns `exact` with that
record. -/
theorem three_digit_code_roundtrip (score : Str → Str → ℚ)
    (df : List Building) (r : Building) (rest : List Building)
    (hlen : r.code.length = 3)
    (hdig : isAllDigits r.code = true)
    (hfirst : df.filter (fun x => x.code == r.code) = r :: rest) :
    find_building_match score (strInt r.code) df = MatchResult.exact r := by
  have hqd : isAllDigits (strInt r.code) = true := strInt_all_digits hdig
  have hq : pyStrip (strInt r.code) = strInt r.code := pyStrip_of_digits hqd
  have hql : pyLower (strInt r.code) = strInt r.code := pyLower_of_digits hqd
  have halias : aliasLookup (pyLower (pyStrip (strInt r.code))) = none := by
    rw [hq, hql]
    exact aliasLookup_of_digits hqd
  have hfind := find_eq_code score
    (aliasMatches_of_lookup_none df halias)
  rw [hfind]
  unfold codeNameMatch
  rw [hq, if_pos hqd, if_neg ?_, zfill3_strInt hlen, hfirst]
  have h1 : (strInt r.code).length ≤ r.code.length :=
    strInt_length_le (by intro h0; rw [h0] at hlen; simp at hlen)
  omega

/-- Witness for C6 amended: display code `"077"`, query `str(int("077")) =
"77"`, resolved to the record. -/
theorem three_digit_code_roundtrip_spot :
    find_building_match (fun _ _ => 0) (strInt ("077".data))
      [⟨"Gilbert Memorial Library".data, "077".data⟩] =
      MatchResult.exact ⟨"Gilbert Memorial Library".data, "077".data⟩ :=
  three_digit_code_roundtrip (fun _ _ => 0)
    [⟨"Gilbert Memorial Library".data, "077".data⟩]
    ⟨"Gilbert Memorial Library".data, "077".data⟩ []
    (by decide) (by decide) (by decide)

/-- C10: the empty (or all-whitespace) query resolves on a non-empty record
collection to `exact` with the first record of minimal name length — the
empty string is not a digit string, is no alias key, and is a substring of
every name, so the substring tier matches every record. -/
theorem empty_query_shortest_name (score : Str → Str → ℚ) (query : Str)
    (b : Building) (bs : List Building)
    (hq : pyStrip query = []) :
    find_building_match score query (b :: bs) =
      MatchResult.exact (pickShortestName b bs) := by
  have hql : pyLower (pyStrip query) = [] := by rw [hq]; rfl
  have halias : aliasLookup (pyLower (pyStrip query)) = none := by
    rw [hql]
    decide
  have hfind := find_eq_code score
    (aliasMatches_of_lookup_none (b :: bs) halias)
  rw [hfind]
  unfold codeNameMatch
  rw [hql, hq, if_neg (by decide)]
  unfold nameMatch
  rcases hfil : (b :: bs).filter (fun x => pyLower x.name == ([] : Str)) with
    _ | ⟨e, rest⟩
  · rw [hfil, show (b :: bs).filter
        (fun x => containsSub ([] : Str) (pyLower x.name))
        = b :: bs from List.filter_eq_self.mpr (fun a _ => containsSub_nil _)]
  · rw [hfil, pickShortestName_filter_nilName bs b e rest hfil]

/-- Witness for C10: two records, whitespace query, shortest name wins. -/
theorem empty_query_shortest_name_spot :
    find_building_match (fun _ _ => 0) ("  ".data)
      [⟨"Klaus Advanced Computing Building".data, "266".data⟩,
       ⟨"Skiles".data, "045".data⟩] =
      MatchResult.exact ⟨"Skiles".data, "045".data⟩ :=
  empty_query_shortest_name (fun _ _ => 0) ("  ".data)
    ⟨"Klaus Advanced Computing Building".data, "266".data⟩
    [⟨"Skiles".data, "045".data⟩] (by decide)

/-- C7 counterexample: a record whose name is the digit string `"750"`.
Resolving its own name sends the query into the numeric-code tier, which
compares it against codes (here `"123"`) and returns `noMatch` — not the
`exact` return the claim requires for every record. -/
theorem digit_name_resolves_noMatch :
    find_building_match (fun _ _ => 0) ("750".data)
      [⟨"750".data, "123".data⟩] = MatchResult.noMatch := by
  decide

/-- C7 amended: for a record `r` in the collection, resolving any
letter-casing of `r.name` — provided the normalized query is not all
digits and scores no alias hit — returns `exact` with a record whose
lowercased name equals the normalized query (the exact-name tier), or with
the substring tier's pick: the first shortest-named record among those
whose name contains the normalized query, a set that always contains `r`
itself. -/
theorem resolve_name_substring_tier (score : Str → Str → ℚ) (query : Str)
    (df : List Building) (r : Building)
    (hr : r ∈ df)
    (hcase : pyLower query = pyLower r.name)
    (halias : aliasMatches df (pyLower (pyStrip query)) = [])
    (hdig : isAllDigits (pyStrip query) = false) :
    ∃ b, find_building_match score query df = MatchResult.exact b ∧
      (pyLower b.name = pyLower (pyStrip query) ∨
       ∃ c cs, df.filter
           (fun x => containsSub (pyLower (pyStrip query)) (pyLower x.name)) =
           c :: cs ∧ b = pickShortestName c cs) := by
  have hfind := find_eq_code score halias
  rw [hfind]
  unfold codeNameMatch
  rw [if_neg (by simp [hdig])]
  unfold nameMatch
  rcases hfil : df.filter (fun x => pyLower x.name == pyLower (pyStrip query))
    with _ | ⟨e, erest⟩
  · have hrpass :
        containsSub (pyLower (pyStrip query)) (pyLower r.name) = true := by
      rw [← hcase]
      exact containsSub_iff.mpr ((pyStrip_within query).map Char.toLower)
    have hrmem : r ∈ df.filter
        (fun x => containsSub (pyLower (pyStrip query)) (pyLower x.name)) :=
      List.mem_filter.mpr ⟨hr, hrpass⟩
    rcases hsub : df.filter
        (fun x => containsSub (pyLower (pyStrip query)) (pyLower x.name))
      with _ | ⟨c, cs⟩
    · rw [hsub] at hrmem
      simp at hrmem
    · rw [hfil, hsub]
      exact ⟨pickShortestName c cs, rfl, Or.inr ⟨c, cs, rfl, rfl⟩⟩
  · rw [hfil]
    refine ⟨e, rfl, Or.inl ?_⟩
    have hmem : e ∈ df.filter
        (fun x => pyLower x.name == pyLower (pyStrip query)) := by
      rw [hfil]
      exact List.mem_cons_self e erest
    simpa using (List.mem_filter.mp hmem).2

/-- Witness for C7 amended: resolving `"SKILES"`, an upper-casing of the
record's name `"Skiles"`, through the substring tier. -/
theorem resolve_name_substring_tier_spot :
    ∃ b, find_building_match (fun _ _ => 0) ("SKILES".data)
        [⟨"Skiles".data, "045".data⟩] = MatchResult.exact b ∧
      (pyLower b.name = pyLower (pyStrip ("SKILES".data)) ∨
       ∃ c cs, List.filter
           (fun x => containsSub (pyLower (pyStrip ("SKILES".data)))
             (pyLower x.name)) [⟨"Skiles".data, "045".data⟩] =
           c :: cs ∧ b = pickShortestName c cs) :=
  resolve_name_substring_tier (fun _ _ => 0) ("SKILES".data)
    [⟨"Skiles".data, "045".data⟩] ⟨"Skiles".data, "045".data⟩
    (by decide) (by decide) (by decide) (by decide)

/-- C8: when the normalized query is an alias key, the resolver returns
`exact` with the first record whose name contains the alias's target
fragment (case-insensitively); when no record's name contains the fragment
it falls through to the code/name tiers instead of failing.  Concretely,
`"culc"` resolves through the alias to the record whose name contains
`"Clough"`. -/
theorem alias_tier_behaviour (score : Str → Str → ℚ) (query : Str)
    (df : List Building) (t : Str)
    (halias : aliasLookup (pyLower (pyStrip query)) = some t) :
    (∀ b bs,
      df.filter (fun x => containsSub (pyLower t) (pyLower x.name)) = b :: bs →
      find_building_match score query df = MatchResult.exact b) ∧
    (df.filter (fun x => containsSub (pyLower t) (pyLower x.name)) = [] →
      find_building_match score query df =
        codeNameMatch score (pyStrip query) (pyLower (pyStrip query)) df) ∧
    find_building_match score ("culc".data)
        [⟨"Clough Building Commons".data, "155".data⟩] =
      MatchResult.exact ⟨"Clough Building Commons".data, "155".data⟩ := by
  have hA : aliasMatches df (pyLower (pyStrip query)) =
      df.filter (fun x => containsSub (pyLower t) (pyLower x.name)) := by
    unfold aliasMatches
    rw [halias]
  refine ⟨?_, ?_, ?_⟩
  · intro b bs hfil
    unfold find_building_match
    simp only [hA, hfil]
  · intro hfil
    unfold find_building_match
    simp only [hA, hfil]
  · rfl

/-- Witness for C8: query `"CULC"` (normalizes to the alias key `"culc"`)
returns the first record containing the target fragment. -/
theorem alias_tier_behaviour_spot :
    find_building_match (fun _ _ => 0) ("CULC".data)
      [⟨"Howey Physics".data, "081".data⟩,
       ⟨"Clough Building Commons".data, "155".data⟩] =
      MatchResult.exact ⟨"Clough Building Commons".data, "155".data⟩ :=
  (alias_tier_behaviour (fun _ _ => 0) ("CULC".data)
      [⟨"Howey Physics".data, "081".data⟩,
       ⟨"Clough Building Commons".data, "155".data⟩]
      ("Clough Building".data) (by decide)).1
    ⟨"Clough Building Commons".data, "155".data⟩ [] (by decide)

/-! ### Bridge construction and occupancy-join lemmas -/

theorem assocLookup_bridgeAppend_self :
    ∀ (b : List (Str × List Str)) (k v : Str),
      assocLookup (bridgeAppend b k v) k =
        some (((assocLookup b k).getD []) ++ [v]) := by
  intro b
  induction b with
  | nil =>
    intro k v
    simp [bridgeAppend, assocLookup]
  | cons kv rest ih =>
    intro k v
    obtain ⟨k', vs⟩ := kv
    unfold bridgeAppend
    by_cases h : k' = k
    · rw [if_pos h]
      simp [assocLookup, h.symm]
    · rw [if_neg h]
      unfold assocLookup
      rw [if_neg (fun he => h he.symm), if_neg (fun he => h he.symm)]
      exact ih k v

theorem assocLookup_bridgeAppend_other {q k : Str} (hne : q ≠ k) :
    ∀ (b : List (Str × List Str)) (v : Str),
      assocLookup (bridgeAppend b k v) q = assocLookup b q := by
  intro b
  induction b with
  | nil =>
    intro v
    simp [bridgeAppend, assocLookup, hne]
  | cons kv rest ih =>
    intro v
    obtain ⟨k', vs⟩ := kv
    unfold bridgeAppend
    by_cases h : k' = k
    · rw [if_pos h]
      unfold assocLookup
      rw [if_neg (h ▸ hne), if_neg (h ▸ hne)]
    · rw [if_neg h]
      unfold assocLookup
      by_cases hq : q = k'
      · rw [if_pos hq, if_pos hq]
      · rw [if_neg hq, if_neg hq]
        exact ih v

theorem foldl_bridgeStep_preserve :
    ∀ (l : List Str) (b : List (Str × List Str)) (k v : Str),
      v ∈ ((assocLookup b k).getD []) →
      v ∈ ((assocLookup (l.foldl bridgeStep b) k).getD []) := by
  intro l
  induction l with
  | nil =>
    intro b k v h
    exact h
  | cons x xs ih =>
    intro b k v h
    rw [List.foldl_cons]
    apply ih
    unfold bridgeStep
    cases hrun : firstDigitRun x with
    | none => exact h
    | some run =>
      by_cases hk : lstripZeros run = k
      · show v ∈ (assocLookup (bridgeAppend b (lstripZeros run) x) k).getD []
        rw [hk, assocLookup_bridgeAppend_self]
        simp only [Option.getD_some]
        exact List.mem_append_left _ h
      · show v ∈ (assocLookup (bridgeAppend b (lstripZeros run) x) k).getD []
        rw [assocLookup_bridgeAppend_other (fun he => hk he.symm)]
        exact h

theorem foldl_bridgeStep_mem :
    ∀ (l : List Str) (b : List (Str × List Str)) (x run : Str),
      x ∈ l → firstDigitRun x = some run →
      x ∈ ((assocLookup (l.foldl bridgeStep b) (lstripZeros run)).getD []) := by
  intro l
  induction l with
  | nil =>
    intro b x run h
    simp at h
  | cons a xs ih =>
    intro b x run hmem hrun
    rw [List.foldl_cons]
    rcases List.mem_cons.mp hmem with rfl | hxs
    · apply foldl_bridgeStep_preserve
      unfold bridgeStep
      rw [hrun]
      show x ∈ (assocLookup (bridgeAppend b (lstripZeros run) x)
        (lstripZeros run)).getD []
      rw [assocLookup_bridgeAppend_self]
      simp
    · exact ih _ x run hxs hrun

theorem mem_uniqueAux : ∀ (l seen : List Str) (x : Str),
    x ∈ uniqueAux seen l ↔ x ∈ l ∧ x ∉ seen := by
  intro l
  induction l with
  | nil =>
    intro seen x
    simp [uniqueAux]
  | cons a xs ih =>
    intro seen x
    unfold uniqueAux
    by_cases ha : a ∈ seen
    · rw [if_pos ha, ih]
      constructor
      · rintro ⟨h1, h2⟩
        exact ⟨List.mem_cons_of_mem a h1, h2⟩
      · rintro ⟨h1, h2⟩
        rcases List.mem_cons.mp h1 with rfl | h3
        · exact absurd ha h2
        · exact ⟨h3, h2⟩
    · rw [if_neg ha]
      constructor
      · intro h
        rcases List.mem_cons.mp h with rfl | h2
        · exact ⟨List.mem_cons_self x xs, ha⟩
        · obtain ⟨h3, h4⟩ := (ih (a :: seen) x).mp h2
          exact ⟨List.mem_cons_of_mem a h3,
            fun hs => h4 (List.mem_cons_of_mem a hs)⟩
      · rintro ⟨h1, h2⟩
        rcases List.mem_cons.mp h1 with rfl | hxs
        · exact List.mem_cons_self x _
        · by_cases hxa : x = a
          · exact hxa ▸ List.mem_cons_self a _
          · refine List.mem_cons_of_mem a ((ih (a :: seen) x).mpr ⟨hxs, ?_⟩)
            intro hs
            rcases List.mem_cons.mp hs with h | h
            · exact hxa h
            · exact h2 h

/-! ### Claims about the bridge and the occupancy join -/

/-- C3: the occupancy loop emits, for each input observation, exactly one
output pair per display code of the expansion of its sensor code, every
pair carrying the observation's own count — the loop is the fan-out
`flatMap` of expansion; in particular sensor code `"191"` bridged to
`["191N","191S"]` with count 50 yields exactly
`[("191N",50),("191S",50)]`. -/
theorem join_fanout_per_display_code :
    (∀ (bridge : List (Str × List Str)) (obs : List Obs),
      joinLoop bridge obs =
        obs.flatMap (fun o => (expandSensorCode bridge o.code).map
          (fun c => (c, o.count)))) ∧
    joinLoop [(("191".data), [("191N".data), ("191S".data)])]
        [⟨"2025-01-01".data, 10, 30, "191".data, 50⟩] =
      [(("191N".data), 50), (("191S".data), 50)] := by
  constructor
  · intro bridge obs
    induction obs with
    | nil => rfl
    | cons o rest ih =>
      simp only [joinLoop]
      rw [List.flatMap_cons, ← ih]
      unfold expandSensorCode
      cases assocLookup bridge o.code <;> rfl
  · decide

/-- C4: a sensor code absent from the bridge expands to the singleton list
holding the code itself, and the join loop emits exactly one pair, whose
code is the observation's own sensor code. -/
theorem expand_passthrough (bridge : List (Str × List Str)) (code : Str)
    (o : Obs) (hl : assocLookup bridge code = none) (ho : o.code = code) :
    expandSensorCode bridge code = [code] ∧
    joinLoop bridge [o] = [(code, o.count)] := by
  constructor
  · unfold expandSensorCode
    rw [hl]
  · simp [joinLoop, ho, hl]

/-- Witness for C4: code `"570"` is not bridged, so it passes through. -/
theorem expand_passthrough_spot :
    expandSensorCode [(("191".data), [("191N".data), ("191S".data)])]
        ("570".data) = [("570".data)] ∧
    joinLoop [(("191".data), [("191N".data), ("191S".data)])]
        [⟨"2025-01-01".data, 8, 0, "570".data, 12⟩] = [(("570".data), 12)] :=
  expand_passthrough _ _ _ (by decide) (by decide)

/-- C5: after bridge construction, every record whose display code has a
digit run appears in the bridge entry of that run's zero-stripped value —
expanding `normalizedDigits(display_code)` yields a list containing
`display_code`. -/
theorem bridge_roundtrip (df : List Building) (r : Building) (run : Str)
    (hr : r ∈ df) (hrun : firstDigitRun r.code = some run) :
    r.code ∈ expandSensorCode (buildBridge (df.map (fun x => x.code)))
      (lstripZeros run) := by
  have hmem : r.code ∈ uniqueFirst (df.map (fun x => x.code)) := by
    rw [uniqueFirst, mem_uniqueAux]
    exact ⟨List.mem_map.mpr ⟨r, hr, rfl⟩, by simp⟩
  have h := foldl_bridgeStep_mem (uniqueFirst (df.map (fun x => x.code))) []
    r.code run hmem hrun
  unfold expandSensorCode
  cases hl : assocLookup (buildBridge (df.map (fun x => x.code)))
      (lstripZeros run) with
  | none =>
    unfold buildBridge at hl
    rw [hl] at h
    simp at h
  | some vs =>
    unfold buildBridge at hl
    rw [hl] at h
    simpa using h

/-- Witness for C5: two wings `"191N"`, `"191S"`; the first one's digit run
normalizes to `"191"`, whose bridge entry contains `"191N"`. -/
theorem bridge_roundtrip_spot :
    ("191N".data) ∈ expandSensorCode
      (buildBridge (List.map (fun x : Building => x.code)
        ([⟨"CRC".data, "191N".data⟩, ⟨"CRC South".data, "191S".data⟩] :
          List Building)))
      (lstripZeros ("191".data)) :=
  bridge_roundtrip [⟨"CRC".data, "191N".data⟩, ⟨"CRC South".data, "191S".data⟩]
    ⟨"CRC".data, "191N".data⟩ ("191".data) (by decide) (by decide)

/-- C9 counterexample: the hour component `"inf"` is non-numeric, yet the
join does not report `invalidInput`: `float("inf")` succeeds and
`int(inf)` raises `OverflowError`, which the source's `except ValueError`
does not catch — the request dies with an unhandled server error, not the
400 the claim requires for every non-numeric component. -/
theorem inf_hour_uncaught_overflow :
    get_occupancy ("2025-01-01".data) ("inf".data) ("30".data) [] [] =
      Except.error JoinError.uncaughtOverflow ∧
    (Except.error JoinError.uncaughtOverflow :
        Except JoinError (List (Str × Nat))) ≠
      Except.error JoinError.invalidInput := by
  constructor
  · rfl
  · intro h
    exact JoinError.noConfusion (Except.error.inj h)

/-- C9 amended: a time selector whose hour or minute fails `int(float(·))`
with a `ValueError` — a malformed literal, or NaN — makes the join return
the `invalidInput` (HTTP 400) error, which is distinct from the
well-formed-but-empty outcome `ok []` produced when both components parse
and no observation matches; a component parsing to an infinity instead
escapes as the uncaught `OverflowError`, not as `invalidInput`. -/
theorem invalid_time_selector (dateq hourq minuteq : Str) (data : List Obs)
    (bridge : List (Str × List Str))
    (h : pyIntFloat hourq = IntParse.valueError ∨
      ((∃ hv, pyIntFloat hourq = IntParse.ok hv) ∧
        pyIntFloat minuteq = IntParse.valueError)) :
    get_occupancy dateq hourq minuteq data bridge =
      Except.error JoinError.invalidInput ∧
    (∀ res : List (Str × Nat),
      (Except.error JoinError.invalidInput :
        Except JoinError (List (Str × Nat))) ≠ Except.ok res) ∧
    (∀ (dq hq mq : Str) (dat : List Obs) (br : List (Str × List Str))
        (h' m' : Int),
      pyIntFloat hq = IntParse.ok h' → pyIntFloat mq = IntParse.ok m' →
      dat.filter (fun o => o.date == dq && o.hour == h' && o.minute == m')
        = [] →
      get_occupancy dq hq mq dat br = Except.ok []) ∧
    (∀ (dq hq mq : Str) (dat : List Obs) (br : List (Str × List Str)),
      pyIntFloat hq = IntParse.overflowError →
      get_occupancy dq hq mq dat br =
        Except.error JoinError.uncaughtOverflow) := by
  refine ⟨?_, ?_, ?_, ?_⟩
  case refine_2 =>
    intro res hres
    exact Except.noConfusion hres
  · unfold get_occupancy
    rcases h with h | ⟨⟨hv, hok⟩, h⟩
    · rw [h]
    · rw [hok, h]
  · intro dq hq mq dat br h' m' hh hm hfil
    unfold get_occupancy
    rw [hh, hm]
    show Except.ok (joinLoop br (dat.filter
      (fun o => o.date == dq && o.hour == h' && o.minute == m'))) =
      Except.ok []
    rw [hfil]
    rfl
  · intro dq hq mq dat br hov
    unfold get_occupancy
    rw [hov]

/-- Witness for C9 amended: hour `"1O"` (digit then letter O) raises
`ValueError` in `float()`, so the join reports the invalid-input error. -/
theorem invalid_time_selector_spot :
    get_occupancy ("2025-01-01".data) ("1O".data) ("30".data) [] [] =
      Except.error JoinError.invalidInput :=
  (invalid_time_selector ("2025-01-01".data) ("1O".data) ("30".data) [] []
    (Or.inl (by decide))).1

/-- C1: for a non-numeric query reaching the similarity fallback (no alias
hit, no exact name equality, no substring containment), the outcome is
fixed by the best score `s` over all record names (the head of the
descending sort): `exact` with the top record when `s ≥ 0.90`,
`suggestion` with the top 3 scored records in descending order when
`0.60 ≤ s < 0.90`, and `noMatch` when `s < 0.60`. -/
theorem fuzzy_tier_thresholds (score : Str → Str → ℚ) (query : Str)
    (df : List Building) (b : Building) (s : ℚ) (rest : List (Building × ℚ))
    (halias : aliasMatches df (pyLower (pyStrip query)) = [])
    (hdig : isAllDigits (pyStrip query) = false)
    (hex : df.filter (fun x => pyLower x.name == pyLower (pyStrip query)) = [])
    (hsub : df.filter (fun x =>
      containsSub (pyLower (pyStrip query)) (pyLower x.name)) = [])
    (hsort : List.insertionSort scoreGE (df.map (fun x =>
      (x, score (pyLower (pyStrip query)) (pyLower x.name)))) =
      (b, s) :: rest) :
    (∀ x ∈ df, score (pyLower (pyStrip query)) (pyLower x.name) ≤ s) ∧
    ((90 / 100 : ℚ) ≤ s →
      find_building_match score query df = MatchResult.exact b) ∧
    ((60 / 100 : ℚ) ≤ s ∧ s < 90 / 100 →
      find_building_match score query df =
        MatchResult.suggestion (((b, s) :: rest).take 3) ∧
      List.Sorted scoreGE (((b, s) :: rest).take 3)) ∧
    (s < 60 / 100 →
      find_building_match score query df = MatchResult.noMatch) := by
  have hfind : find_building_match score query df =
      fuzzyMatch score (pyLower (pyStrip query)) df := by
    rw [find_eq_code score halias]
    unfold codeNameMatch
    rw [if_neg (by simp [hdig])]
    unfold nameMatch
    rw [hex, hsub]
  have hsorted : List.Sorted scoreGE ((b, s) :: rest) := by
    rw [← hsort]
    exact List.sorted_insertionSort scoreGE _
  have hperm := List.perm_insertionSort scoreGE (df.map (fun x =>
    (x, score (pyLower (pyStrip query)) (pyLower x.name))))
  refine ⟨?_, ?_, ?_, ?_⟩
  · intro x hx
    have hmem : (x, score (pyLower (pyStrip query)) (pyLower x.name)) ∈
        (b, s) :: rest := by
      rw [← hsort]
      exact (hperm.mem_iff).mpr (List.mem_map.mpr ⟨x, hx, rfl⟩)
    rcases List.mem_cons.mp hmem with heq | hmem2
    · exact le_of_eq (congrArg Prod.snd heq)
    · exact List.rel_of_sorted_cons hsorted _ hmem2
  · intro hge
    rw [hfind]
    unfold fuzzyMatch
    rw [hsort]
    show (if (90 / 100 : ℚ) ≤ s then MatchResult.exact b
      else if (60 / 100 : ℚ) ≤ s then
        MatchResult.suggestion (((b, s) :: rest).take 3)
      else MatchResult.noMatch) = MatchResult.exact b
    rw [if_pos hge]
  · rintro ⟨hge, hlt⟩
    refine ⟨?_, List.Pairwise.sublist (List.take_sublist 3 _) hsorted⟩
    rw [hfind]
    unfold fuzzyMatch
    rw [hsort]
    show (if (90 / 100 : ℚ) ≤ s then MatchResult.exact b
      else if (60 / 100 : ℚ) ≤ s then
        MatchResult.suggestion (((b, s) :: rest).take 3)
      else MatchResult.noMatch) =
      MatchResult.suggestion (((b, s) :: rest).take 3)
    rw [if_neg (not_le.mpr hlt), if_pos hge]
  · intro hlt
    rw [hfind]
    unfold fuzzyMatch
    rw [hsort]
    show (if (90 / 100 : ℚ) ≤ s then MatchResult.exact b
      else if (60 / 100 : ℚ) ≤ s then
        MatchResult.suggestion (((b, s) :: rest).take 3)
      else MatchResult.noMatch) = MatchResult.noMatch
    rw [if_neg (not_le.mpr (lt_trans hlt (by norm_num))),
      if_neg (not_le.mpr hlt)]

/-- Witness for C1: a constant score of 0.95 against a single record whose
name the query neither equals nor is contained in, so the fallback fires
and returns `exact` with that record. -/
theorem fuzzy_tier_thresholds_spot :
    find_building_match (fun _ _ => (1 : ℚ)) ("zz".data)
      [⟨"Alpha".data, "001".data⟩] =
      MatchResult.exact ⟨"Alpha".data, "001".data⟩ :=
  ((fuzzy_tier_thresholds (fun _ _ => (1 : ℚ)) ("zz".data)
      [⟨"Alpha".data, "001".data⟩] ⟨"Alpha".data, "001".data⟩ 1 []
      (by decide) (by decide) (by decide) (by decide) (by decide)).2).1
    (by norm_num)

example : pyStrip (" ab ".data) = "ab".data := by decide

example : zfill3 ("77".data) = "077".data := by decide

example : strInt ("077".data) = "77".data := by decide

example : aliasLookup ("culc".data) = some ("Clough Building".data) := by decide

example : containsSub ("lou".data) ("clough".data) = true := by decide

example : buildBridge [("191N".data), ("191S".data), ("EBB".data)] =
    [("191".data, [("191N".data), ("191S".data)])] := by decide

example : firstDigitRun ("A0091N".data) = some ("0091".data) := by decide

example : pyIntFloat ("  -3.7 ".data) = IntParse.ok (-3) := by decide

example : pyIntFloat ("3a".data) = IntParse.valueError := by decide

example : pyIntFloat (".5".data) = IntParse.ok 0 := by decide

example : pyIntFloat ("".data) = IntParse.valueError := by decide

example : pyIntFloat ("1e3".data) = IntParse.ok 1000 := by decide

example : pyIntFloat ("1E2".data) = IntParse.ok 100 := by decide

example : pyIntFloat ("1_0".data) = IntParse.ok 10 := by decide

example : pyIntFloat ("1_".data) = IntParse.valueError := by decide

example : pyIntFloat ("12.9e1".data) = IntParse.ok 129 := by decide

example : pyIntFloat ("inf".data) = IntParse.overflowError := by decide

example : pyIntFloat ("-Infinity".data) = IntParse.overflowError := by decide

example : pyIntFloat ("nan".data) = IntParse.valueError := by decide

example : pyIntFloat ("1e400".data) = IntParse.overflowError := by decide

example : pyIntFloat ("1.7e308".data) = IntParse.ok (17 * 10 ^ 307) := by decide

example : pyIntFloat ("1.".data) = IntParse.ok 1 := by decide

example : pyIntFloat ("1.e3".data) = IntParse.ok 1000 := by decide

example : pyIntFloat ("+.5".data) = IntParse.ok 0 := by decide

example : pyIntFloat (".".data) = IntParse.valueError := by decide

example : pyIntFloat ("1__0".data) = IntParse.valueError := by decide

example : pyIntFloat ("1e".data) = IntParse.valueError := by decide

example : pyIntFloat ("1e+3".data) = IntParse.ok 1000 := by decide

example : pyIntFloat ("0e999999".data) = IntParse.ok 0 := by decide

end CampusWifi
